import Mathlib

/-!
Shallow embedding of the `dnstest` measurement pipeline and pollution
comparator, translated from the Rust sources:

* `src/dns/types.rs`    — `DnsServer`, `SpeedTestResult`, `TestSummary`
* `src/dns/speedtest.rs` — `SpeedTester::test_latency`
* `src/dns/pollution.rs` — `PollutionChecker::detect_pollution` / `check`
* `src/tui/app.rs`       — `App::start_speed_test` (scheduler / channel models)

Machine floats (`f64`) are embedded as exact rationals `ℚ`; the network is an
external input, so per-round ping results and DNS resolver answers are passed
in explicitly.  Concurrent behaviour of `start_speed_test` is embedded as
small transition systems over explicit interleavings.
-/

namespace Dnstest

/-! ## IP addresses

`std::net::IpAddr` values.  An IPv4 address is four octets, an IPv6 address
is eight 16-bit groups. -/

/-- An IP address: `std::net::IpAddr`. -/
inductive IpAddr where
  | v4 (a b c d : ℕ)
  | v6 (segs : List ℕ)
deriving DecidableEq, Repr

/-- Rust `IpAddr::is_ipv6`. -/
def IpAddr.is_ipv6 : IpAddr → Bool
  | .v4 _ _ _ _ => false
  | .v6 _ => true

/-- Rust `IpAddr::is_ipv4`. -/
def IpAddr.is_ipv4 : IpAddr → Bool
  | .v4 _ _ _ _ => true
  | .v6 _ => false

/-- Split a character list on a separator character; models Rust/Lean
`split` on a one-character pattern (`"a..b"` on `.` gives `a`, ``, `b`). -/
def splitOnSep (sep : Char) : List Char → List (List Char)
  | [] => [[]]
  | c :: rest =>
    let r := splitOnSep sep rest
    if c = sep then [] :: r
    else
      match r with
      | g :: gs => (c :: g) :: gs
      | [] => [[c]]

/-- Decimal value of a non-empty all-digit character group, else `none`. -/
def decimalValue? (cs : List Char) : Option ℕ :=
  if cs ≠ [] ∧ cs.all (·.isDigit) then
    some (cs.foldl (fun n c => n * 10 + (c.toNat - 48)) 0)
  else none

/-- One IPv4 dotted-quad component, with the `std` parsing rules: decimal
digits only, value at most 255, no leading zero except the single digit 0. -/
def ipv4Octet? (cs : List Char) : Option ℕ :=
  match decimalValue? cs with
  | none => none
  | some v =>
    if v ≤ 255 ∧ (cs.head? = some '0' → cs.length = 1) then some v else none

/-- Value of one hexadecimal digit, else `none`. -/
def hexDigitVal? (c : Char) : Option ℕ :=
  if c.isDigit then some (c.toNat - 48)
  else if 'a' ≤ c ∧ c ≤ 'f' then some (c.toNat - 87)
  else if 'A' ≤ c ∧ c ≤ 'F' then some (c.toNat - 55)
  else none

/-- One IPv6 group: one to four hexadecimal digits. -/
def hexGroup? (cs : List Char) : Option ℕ :=
  if cs ≠ [] ∧ cs.length ≤ 4 then
    cs.foldl (fun acc c =>
      match acc, hexDigitVal? c with
      | some n, some d => some (n * 16 + d)
      | _, _ => none) (some 0)
  else none

/-- Models `str::parse::<Ipv4Addr>` from `std`: a dotted quad of octets. -/
def parseIpv4 (s : String) : Option IpAddr :=
  match (splitOnSep '.' s.data).map ipv4Octet? with
  | [some a, some b, some c, some d] => some (.v4 a b c d)
  | _ => none

/-- Models `str::parse::<Ipv6Addr>` from `std` on the uncompressed fragment
used in this development: exactly eight colon-separated hexadecimal groups
(the `std` parser additionally accepts compressed forms with a double
separator, which no theorem below evaluates). -/
def parseIpv6 (s : String) : Option IpAddr :=
  let groups := (splitOnSep ':' s.data).map hexGroup?
  if groups.length = 8 ∧ groups.all (·.isSome) then
    some (.v6 (groups.filterMap id))
  else none

/-- Models `str::parse::<IpAddr>` from `std`: IPv4 form, else IPv6 form. -/
def parseIp (s : String) : Option IpAddr :=
  match parseIpv4 s with
  | some ip => some ip
  | none => parseIpv6 s

/-! ## `src/dns/types.rs` -/

/-- `DnsStatus` from `src/dns/types.rs`. -/
inductive DnsStatus where
  | pending
  | testing
  | success
  | failed
  | timeout
deriving DecidableEq, Repr

/-- `DnsServer` from `src/dns/types.rs`: a named probe target whose address
is an arbitrary string. -/
structure DnsServer where
  name : String
  ip : String
  delay : Option ℚ
  status : DnsStatus
deriving DecidableEq, Repr

/-- `DnsServer::new`. -/
def DnsServer.new (name ip : String) : DnsServer :=
  ⟨name, ip, none, .pending⟩

/-- `DnsServer::ip_addr`: `self.ip.parse().ok()`. -/
def DnsServer.ip_addr (s : DnsServer) : Option IpAddr :=
  parseIp s.ip

/-- `SpeedTestResult` from `src/dns/types.rs`; `f64` fields are embedded as
`ℚ`. -/
structure SpeedTestResult where
  server : DnsServer
  latency_ms : Option ℚ
  packet_loss : ℚ
  success : Bool
  error : Option String
deriving DecidableEq, Repr

/-- `SpeedTestResult::success` (the constructor function; named `mkSuccess`
here because the Rust name collides with the `success` field). -/
def SpeedTestResult.mkSuccess (server : DnsServer) (latency_ms packet_loss : ℚ) :
    SpeedTestResult :=
  { server := server
    latency_ms := some latency_ms
    packet_loss := packet_loss
    success := true
    error := none }

/-- `SpeedTestResult::failure`. -/
def SpeedTestResult.failure (server : DnsServer) (error : String) : SpeedTestResult :=
  { server := server
    latency_ms := none
    packet_loss := 1
    success := false
    error := some error }

/-- `SpeedTestResult::is_timeout`. -/
def SpeedTestResult.is_timeout (r : SpeedTestResult) : Bool :=
  !r.success && r.error = some "timeout"

/-- `TestSummary` from `src/dns/types.rs` (the spec's `RunSummary`). -/
structure TestSummary where
  total : ℕ
  success : ℕ
  failed : ℕ
  timeout : ℕ
  avg_latency : Option ℚ
  min_latency : Option ℚ
  max_latency : Option ℚ
deriving DecidableEq, Repr

/-- `TestSummary::new` / `Default`. -/
def TestSummary.new : TestSummary :=
  ⟨0, 0, 0, 0, none, none, none⟩

/-- `TestSummary::add_result` from `src/dns/types.rs` (the spec's `fold`).
`a.mul_add(k, x)` is `a * k + x`; `(self.success - 1) as f64` is the
saturating `ℕ` subtraction cast to the number field. -/
def TestSummary.add_result (s : TestSummary) (result : SpeedTestResult) : TestSummary :=
  let s := { s with total := s.total + 1 }
  if result.success then
    let s := { s with success := s.success + 1 }
    match result.latency_ms with
    | some latency =>
      { s with
        avg_latency := some
          (match s.avg_latency with
           | some a => (a * ((s.success - 1 : ℕ) : ℚ) + latency) / (s.success : ℚ)
           | none => latency)
        min_latency := some
          (match s.min_latency with
           | some m => min m latency
           | none => latency)
        max_latency := some
          (match s.max_latency with
           | some m => max m latency
           | none => latency) }
    | none => s
  else if result.is_timeout then
    { s with timeout := s.timeout + 1 }
  else
    { s with failed := s.failed + 1 }

/-- `TestSummary::success_rate`. -/
def TestSummary.success_rate (s : TestSummary) : ℚ :=
  if s.total = 0 then 0
  else ((s.success : ℚ) / (s.total : ℚ)) * 100

/-- `SpeedTester::summarize` restricted to its fold: fold a list of results
into a fresh summary, in order. -/
def summarize (results : List SpeedTestResult) : TestSummary :=
  results.foldl TestSummary.add_result TestSummary.new

/-! ## `src/dns/speedtest.rs` -/

/-- `SpeedTester::test_latency` from `src/dns/speedtest.rs`.  The network is
an external input: `rounds` lists, for each of the `ping_count` sequential
ping rounds, `some latency` when the echo reply arrived in time and `none`
on timeout or transport error.  The address checks and the aggregation of
the per-round results are translated verbatim. -/
def test_latency (server : DnsServer) (rounds : List (Option ℚ)) : SpeedTestResult :=
  match server.ip_addr with
  | none => SpeedTestResult.failure server "Invalid IP address"
  | some ip =>
    if ip.is_ipv6 then
      SpeedTestResult.failure server "IPv6 not supported yet"
    else
      let latencies := rounds.filterMap id
      let success_count := latencies.length
      let ping_count := rounds.length
      let packet_loss := 1 - (success_count : ℚ) / (ping_count : ℚ)
      if success_count > 0 then
        SpeedTestResult.mkSuccess server (latencies.sum / (latencies.length : ℚ)) packet_loss
      else
        SpeedTestResult.failure server "timeout"

/-! ## `src/dns/pollution.rs` -/

/-- The `PUBLIC_DNS_IPS` allow-list from `src/dns/pollution.rs`, as parsed
addresses.  The source stores the canonical display strings and compares
`sys_ip.to_string()` against them; since display and parse of `IpAddr` are
mutually inverse canonical forms, string equality there is address
equality. -/
def PUBLIC_DNS_IPS : List IpAddr :=
  [ .v4 8 8 8 8
  , .v4 8 8 4 4
  , .v4 1 1 1 1
  , .v4 1 0 0 1
  , .v4 9 9 9 9
  , .v4 208 67 222 222
  , .v4 208 67 220 220
  , .v6 [0x2001, 0x4860, 0x4860, 0, 0, 0, 0, 0x8888]
  , .v6 [0x2001, 0x4860, 0x4860, 0, 0, 0, 0, 0x8844]
  , .v6 [0x2606, 0x4700, 0x4700, 0, 0, 0, 0, 0x1111]
  , .v6 [0x2606, 0x4700, 0x4700, 0, 0, 0, 0, 0x1001]
  , .v6 [0x2620, 0xfe, 0, 0, 0, 0, 0, 0xfe]
  , .v6 [0x2620, 0xfe, 0, 0, 0, 0, 0, 0x9]
  ]

/-- `PollutionChecker::detect_pollution` from `src/dns/pollution.rs`.  The
source loop returns `false` at the first system address found in the public
result set or in `PUBLIC_DNS_IPS` (`List.find?` locates that first match);
if the loop runs to completion it returns
`!system_ips.is_empty() && !public_ips.is_empty()`. -/
def detect_pollution (system_ips public_ips : List IpAddr) : Bool :=
  if system_ips.isEmpty || public_ips.isEmpty then
    false
  else
    match system_ips.find? (fun sys_ip =>
        public_ips.contains sys_ip || PUBLIC_DNS_IPS.contains sys_ip) with
    | some _ => false
    | none => !system_ips.isEmpty && !public_ips.isEmpty

/-- `PollutionResult` from `src/dns/types.rs`. -/
structure PollutionResult where
  domain : String
  system_ips : List IpAddr
  public_ips : List IpAddr
  is_polluted : Bool
  details : String
deriving DecidableEq, Repr

/-- Rust `str::ends_with('.')` on the domain string. -/
def endsWithDot (s : String) : Bool :=
  s.data.getLast? = some '.'

/-- Rust `str::trim_end_matches('.')`: remove every trailing dot. -/
def trimTrailingDots (s : String) : String :=
  ⟨(s.data.reverse.dropWhile (· = '.')).reverse⟩

/-- The qualified form `check` builds before querying: the domain itself if
it already ends with a dot, otherwise `format!("{domain}.")`. -/
def qualify (domain : String) : String :=
  if endsWithDot domain then domain else domain ++ "."

/-- Human-readable details string of `check`; the embedded address lists are
rendered with `Repr` in place of Rust `Debug` (the spec attaches no
machine-checked meaning to this field). -/
def detailsFor (is_polluted : Bool) (system_ips public_ips : List IpAddr) : String :=
  if is_polluted then
    "System DNS returned: " ++ reprStr system_ips
      ++ ", Public DNS returned: " ++ reprStr public_ips
  else
    "Both returned similar results: " ++ reprStr public_ips

/-- `PollutionChecker::check` from `src/dns/pollution.rs`.  DNS resolution
is an external input: `resolveSystem` and `resolvePublic` are the two
resolvers as oracles from the queried name to `Except` of error or address
list, standing for `resolve_with` on the system and public resolver; `?`
propagation is the `Except` bind. -/
def check (resolveSystem resolvePublic : String → Except String (List IpAddr))
    (domain : String) : Except String PollutionResult := do
  let domainQ := qualify domain
  let system_ips ← resolveSystem domainQ
  let public_ips ← resolvePublic domainQ
  let is_polluted := detect_pollution system_ips public_ips
  let details := detailsFor is_polluted system_ips public_ips
  pure
    { domain := trimTrailingDots domainQ
      system_ips := system_ips
      public_ips := public_ips
      is_polluted := is_polluted
      details := details }

/-- Modelled from the spec (refinement reference only, not from the source):
"the returned `domain` field is the original unqualified form" — the input
with its trailing separator removed when it is fully qualified, the input
itself otherwise. -/
def specUnqualified (domain : String) : String :=
  if endsWithDot domain then ⟨domain.data.dropLast⟩ else domain

/-! ## `src/tui/app.rs` — scheduler models

`App::start_speed_test` spawns one task per server on the multi-threaded
tokio runtime.  Three aspects are embedded as explicit transition systems
over interleavings:

* the `tested` progress counter (atomic `fetch_add` then channel send),
* the channel trace of `Result`/`Progress`/`Completed` messages around the
  120-second global deadline,
* the `Semaphore(MAX_CONCURRENT)` admission gate. -/

/-- `MAX_CONCURRENT` from `App::start_speed_test`. -/
def MAX_CONCURRENT : ℕ := 20

/-- `TOTAL_TIMEOUT_SECS` from `App::start_speed_test`. -/
def TOTAL_TIMEOUT_SECS : ℕ := 120

/-! ### Progress-tick model (claim C5)

Each spawned task performs, after its probe finishes, two steps that touch
shared state with no suspension point between them but with arbitrary
interleaving of other worker threads:

1. `let count = tested.fetch_add(1, Relaxed) + 1` — atomic, yields a local
   value;
2. `tx.send(Progress it tested: count, total ...)` — appends to the channel.

An interleaving is a list of task ids; a task id's first occurrence runs
step 1, its second occurrence runs step 2. -/

/-- Shared state of the tick model: the atomic `tested` counter, each
task's local `count` once computed, and the `tested` values of the
`Progress` messages in channel order. -/
structure TickState where
  tested : ℕ
  localCount : ℕ → Option ℕ
  progressSent : List ℕ

/-- Initial tick state: counter 0, no local values, empty channel. -/
def TickState.init : TickState :=
  ⟨0, fun _ => none, []⟩

/-- One scheduled step of task `i`: its atomic `fetch_add` if its local
count is not yet computed, otherwise its `Progress` send. -/
def tickStep (s : TickState) (i : ℕ) : TickState :=
  match s.localCount i with
  | none =>
    let count := s.tested + 1
    { tested := count
      localCount := fun j => if j = i then some count else s.localCount j
      progressSent := s.progressSent }
  | some count =>
    { s with progressSent := s.progressSent ++ [count] }

/-- Run an interleaving from the initial tick state. -/
def tickRun (sched : List ℕ) : TickState :=
  sched.foldl tickStep TickState.init

/-- The `Progress.tested` values observed on the channel, in channel order,
for a given interleaving. -/
def progressTrace (sched : List ℕ) : List ℕ :=
  (tickRun sched).progressSent

/-- A valid interleaving of `n` probe tasks: every task id below `n` occurs
exactly twice (its increment and its send) and nothing else occurs. -/
def validInterleaving (n : ℕ) (sched : List ℕ) : Bool :=
  (List.range n).all (fun i => sched.count i = 2) && sched.all (· < n)

/-- The serial interleaving of the distinct task ids `ids`: each task's
increment is immediately followed by its send, with no other task's step in
between. -/
def serialInterleaving (ids : List ℕ) : List ℕ :=
  ids.flatMap (fun i => [i, i])

/-! ### Run-trace model (claim C6)

The spawner task spawns every probe task, then awaits
`timeout(TOTAL_TIMEOUT_SECS, join_all(handles))`, then sends `Completed`.
On timeout the join is dropped but the spawned tasks are neither aborted
nor their channel senders closed, so a task that finishes late still sends
its `Result`/`Progress` pair.  A run is an interleaving of events: each
task's completion (which sends its pair), the optional deadline expiry, and
the spawner's single `Completed` send. -/

/-- Events of one scheduler run. -/
inductive RunEvent where
  | task (i : ℕ)
  | deadline
  | done
deriving DecidableEq, Repr

/-- Channel messages (`AppMessage` from `src/tui/app.rs`, with `Result`
reduced to its task index and `Progress` to its sender). -/
inductive AppMessage where
  | result (i : ℕ)
  | progress (i : ℕ)
  | completed
deriving DecidableEq, Repr

/-- A valid run of `n` probe tasks: each task completes exactly once, the
deadline fires at most once, `Completed` is sent exactly once, and the
`Completed` send happens only once `join_all` resolved — that is, after
every task's completion or after the deadline expiry. -/
def validRun (n : ℕ) (events : List RunEvent) : Bool :=
  let before := events.take (events.indexOf RunEvent.done)
  (List.range n).all (fun i => events.count (RunEvent.task i) = 1)
    && (events.all fun e => match e with
        | .task i => decide (i < n)
        | _ => true)
    && decide (events.count RunEvent.deadline ≤ 1)
    && decide (events.count RunEvent.done = 1)
    && (before.contains RunEvent.deadline
        || (List.range n).all (fun i => before.contains (RunEvent.task i)))

/-- The channel trace of a run: a completing task sends its `Result` then
its `Progress` (two sends with no suspension point between them), the
spawner's `done` event sends `Completed`, the deadline expiry sends
nothing. -/
def runTrace (events : List RunEvent) : List AppMessage :=
  events.flatMap fun e =>
    match e with
    | .task i => [AppMessage.result i, AppMessage.progress i]
    | .deadline => []
    | .done => [AppMessage.completed]

/-! ### Admission-gate model (claim C7)

`start_speed_test` acquires one permit of `Semaphore::new(MAX_CONCURRENT)`
before spawning each probe task and the task drops its permit when it
completes (on every path).  The model tracks the permit count and each
task's phase; a schedule is a list of acquire/finish events, and an event
whose guard does not hold (no permit free, wrong phase) is a no-op, so
every event list denotes a run. -/

/-- Phase of one probe task with respect to the admission gate. -/
inductive TaskPhase where
  | waiting
  | running
  | done
deriving DecidableEq, Repr

/-- Events of the admission-gate model. -/
inductive SemEvent where
  | acquire (i : ℕ)
  | finish (i : ℕ)
deriving DecidableEq, Repr

/-- State of the admission-gate model: free permits and the phase of each
of the tasks. -/
structure SemState where
  available : ℕ
  phases : List TaskPhase
deriving DecidableEq, Repr

/-- Initial gate state for `n` tasks and `k` permits. -/
def SemState.init (k n : ℕ) : SemState :=
  ⟨k, List.replicate n .waiting⟩

/-- Number of Prober invocations in flight: tasks between their permit
acquisition and their permit release. -/
def SemState.running (s : SemState) : ℕ :=
  s.phases.count .running

/-- One event of the admission-gate model.  `acquire i` admits a waiting
task `i` when a permit is free (otherwise the acquisition suspends — a
no-op here); `finish i` completes a running task `i` and returns its
permit. -/
def semStep (s : SemState) (e : SemEvent) : SemState :=
  match e with
  | .acquire i =>
    if s.phases.get? i = some .waiting ∧ 0 < s.available then
      { available := s.available - 1, phases := s.phases.set i .running }
    else s
  | .finish i =>
    if s.phases.get? i = some .running then
      { available := s.available + 1, phases := s.phases.set i .done }
    else s

/-- Run a schedule of gate events for `n` tasks under `k` permits. -/
def semRun (k n : ℕ) (events : List SemEvent) : SemState :=
  events.foldl semStep (SemState.init k n)

/-! ## Theorems -/

/-- Characterization of one `add_result` call on a class-counter level:
`total` grows by exactly one, and exactly one of the three class counters
grows by exactly one, chosen by the classification of the result. -/
theorem add_result_counters (s : TestSummary) (r : SpeedTestResult) :
    (s.add_result r).total = s.total + 1
      ∧ (s.add_result r).success = s.success + (if r.success then 1 else 0)
      ∧ (s.add_result r).timeout
          = s.timeout + (if r.success = false ∧ r.is_timeout = true then 1 else 0)
      ∧ (s.add_result r).failed
          = s.failed + (if r.success = false ∧ r.is_timeout = false then 1 else 0) := by
  by_cases hs : r.success <;> by_cases ht : r.is_timeout <;>
    simp [TestSummary.add_result, hs, ht] <;>
    cases hl : r.latency_ms <;> simp [hl]

/-- Claim C4: for every `RunSummary` built from the empty summary by any
sequence of `add_result` (fold) calls, `succeeded + failed + timed_out =
total` holds after every call; each call increments `total` by exactly one
and exactly one of the three class counters by exactly one. -/
theorem summarize_counter_invariant :
    (∀ results : List SpeedTestResult,
        (summarize results).success + (summarize results).failed
            + (summarize results).timeout = (summarize results).total)
      ∧ (∀ (s : TestSummary) (r : SpeedTestResult),
          (s.add_result r).total = s.total + 1
            ∧ (s.add_result r).success = s.success + (if r.success then 1 else 0)
            ∧ (s.add_result r).timeout
                = s.timeout + (if r.success = false ∧ r.is_timeout = true then 1 else 0)
            ∧ (s.add_result r).failed
                = s.failed + (if r.success = false ∧ r.is_timeout = false then 1 else 0)) := by
  constructor
  · intro results
    suffices h : ∀ (l : List SpeedTestResult) (s : TestSummary),
        s.success + s.failed + s.timeout = s.total →
        (l.foldl TestSummary.add_result s).success + (l.foldl TestSummary.add_result s).failed
          + (l.foldl TestSummary.add_result s).timeout = (l.foldl TestSummary.add_result s).total by
      exact h results TestSummary.new rfl
    intro l
    induction l with
    | nil => intro s hs; exact hs
    | cons r l ih =>
      intro s hs
      apply ih
      obtain ⟨h1, h2, h3, h4⟩ := add_result_counters s r
      by_cases hr : r.success <;> by_cases hto : r.is_timeout <;>
        simp [hr, hto] at h1 h2 h3 h4 <;> omega
  · exact add_result_counters

/-- Claim C8: every result produced by `test_latency`, for any endpoint and
any per-round results, has `latency_ms` present and `error` absent when
`success` is true, and `latency_ms` absent when `success` is false. -/
theorem speed_test_result_invariant (server : DnsServer) (rounds : List (Option ℚ)) :
    ((test_latency server rounds).success = true
        ∧ ((test_latency server rounds).latency_ms).isSome = true
        ∧ (test_latency server rounds).error = none)
      ∨ ((test_latency server rounds).success = false
        ∧ (test_latency server rounds).latency_ms = none) := by
  unfold test_latency
  cases hip : server.ip_addr with
  | none => right; simp [SpeedTestResult.failure]
  | some ip =>
    by_cases h6 : ip.is_ipv6
    · right; simp [h6, SpeedTestResult.failure]
    · by_cases hc : (rounds.filterMap id).length > 0
      · left; simp [h6, hc, SpeedTestResult.mkSuccess]
      · right; simp [h6, hc, SpeedTestResult.failure]

/-- Claim C10: every unsuccessful `test_latency` result — including the
invalid-address and IPv6 short-circuits reached with zero probe rounds —
carries `packet_loss = 1` and a failure reason. -/
theorem failure_packet_loss_one (server : DnsServer) (rounds : List (Option ℚ))
    (h : (test_latency server rounds).success = false) :
    (test_latency server rounds).packet_loss = 1
      ∧ ((test_latency server rounds).error).isSome = true := by
  revert h
  unfold test_latency
  cases hip : server.ip_addr with
  | none => intro _; simp [SpeedTestResult.failure]
  | some ip =>
    by_cases h6 : ip.is_ipv6
    · intro _; simp [h6, SpeedTestResult.failure]
    · by_cases hc : (rounds.filterMap id).length > 0
      · simp [h6, hc, SpeedTestResult.mkSuccess]
      · intro _; simp [h6, hc, SpeedTestResult.failure]

/-- Witness for C10: the invalid-address short-circuit (`"not-an-ip"`) and
the IPv6 short-circuit, both with an empty round list (no probe attempt),
still report full packet loss and a failure reason. -/
theorem failure_packet_loss_one_witness :
    (test_latency (DnsServer.new "x" "not-an-ip") []).packet_loss = 1
      ∧ ((test_latency (DnsServer.new "x" "not-an-ip") []).error).isSome = true
      ∧ (test_latency (DnsServer.new "v6" "1:2:3:4:5:6:7:8") []).packet_loss = 1
      ∧ ((test_latency (DnsServer.new "v6" "1:2:3:4:5:6:7:8") []).error).isSome = true := by
  obtain ⟨h1, h2⟩ := failure_packet_loss_one (DnsServer.new "x" "not-an-ip") [] (by decide)
  obtain ⟨h3, h4⟩ := failure_packet_loss_one (DnsServer.new "v6" "1:2:3:4:5:6:7:8") [] (by decide)
  exact ⟨h1, h2, h3, h4⟩

/-- Claim C1 counterexample: the system set contains `1.1.1.1` (present in
the reference answer) together with `203.0.113.9` (present in neither the
reference answer nor the allow-list).  The claim as stated predicts
`polluted = true` because a system address matches neither set, but the
source's loop returns clean at the first matching address. -/
theorem detect_pollution_claim_counterexample :
    detect_pollution [IpAddr.v4 1 1 1 1, IpAddr.v4 203 0 113 9] [IpAddr.v4 1 1 1 1] = false
      ∧ ([IpAddr.v4 1 1 1 1, IpAddr.v4 203 0 113 9].any
          (fun ip => !([IpAddr.v4 1 1 1 1].contains ip) && !(PUBLIC_DNS_IPS.contains ip))) = true := by
  decide

/-- Claim C1 (amended): with both address lists non-empty, the pollution
verdict is `true` exactly when no system address is a member of the
reference resolver's address set or of the fixed allow-list; a single
matching system address makes the verdict `false`, and an empty list on
either side makes it `false` with no comparison attempted. -/
theorem detect_pollution_policy (system_ips public_ips : List IpAddr) :
    detect_pollution system_ips public_ips = true
      ↔ system_ips ≠ [] ∧ public_ips ≠ []
          ∧ ∀ ip ∈ system_ips, ip ∉ public_ips ∧ ip ∉ PUBLIC_DNS_IPS := by
  unfold detect_pollution
  split
  · rename_i hemp
    simp only [Bool.false_eq_true, false_iff]
    rintro ⟨h1, h2, -⟩
    rcases Bool.or_eq_true .. ▸ hemp with h | h
    · exact h1 (List.isEmpty_iff.mp h)
    · exact h2 (List.isEmpty_iff.mp h)
  · rename_i hemp
    rw [Bool.or_eq_true] at hemp
    push_neg at hemp
    obtain ⟨he1, he2⟩ := hemp
    have hne1 : system_ips ≠ [] := fun h => he1 (by simp [h])
    have hne2 : public_ips ≠ [] := fun h => he2 (by simp [h])
    split
    · rename_i ip hfind
      simp only [Bool.false_eq_true, false_iff]
      rintro ⟨-, -, hall⟩
      have hx := List.mem_of_find?_eq_some hfind
      have hpx := List.find?_some hfind
      obtain ⟨hnp, hna⟩ := hall ip hx
      rcases Bool.or_eq_true .. ▸ hpx with h | h
      · exact hnp (by simpa using h)
      · exact hna (by simpa using h)
    · rename_i hfind
      have hall := List.find?_eq_none.mp hfind
      constructor
      · intro _
        refine ⟨hne1, hne2, fun ip hip => ?_⟩
        have := hall ip hip
        simp only [Bool.or_eq_true, not_or] at this
        constructor
        · intro hmem; exact this.1 (by simpa using hmem)
        · intro hmem; exact this.2 (by simpa using hmem)
      · intro _
        simp [List.isEmpty_iff, hne1, hne2]

/-- Witness for the amended C1: a lone private system address absent from
both the reference answer and the allow-list is flagged as polluted. -/
theorem detect_pollution_policy_witness :
    detect_pollution [IpAddr.v4 203 0 113 9] [IpAddr.v4 1 1 1 1] = true := by
  exact (detect_pollution_policy [IpAddr.v4 203 0 113 9] [IpAddr.v4 1 1 1 1]).mpr
    ⟨by decide, by decide, by decide⟩

/-- Claim C2: for a probe call with at least one round and a parseable IPv4
address, zero successful rounds yield the `timeout` failure with full packet
loss, and at least one successful round yields a success whose latency is
the arithmetic mean of the successful rounds' latencies and whose packet
loss is one minus the success ratio. -/
theorem test_latency_outcome (server : DnsServer) (rounds : List (Option ℚ))
    (a b c d : ℕ) (hip : server.ip_addr = some (IpAddr.v4 a b c d))
    (hrounds : rounds ≠ []) :
    (rounds.filterMap id = [] →
        test_latency server rounds = SpeedTestResult.failure server "timeout"
          ∧ (test_latency server rounds).packet_loss = 1)
      ∧ (rounds.filterMap id ≠ [] →
        (test_latency server rounds).success = true
          ∧ (test_latency server rounds).latency_ms
              = some ((rounds.filterMap id).sum / ((rounds.filterMap id).length : ℚ))
          ∧ (test_latency server rounds).packet_loss
              = 1 - ((rounds.filterMap id).length : ℚ) / (rounds.length : ℚ)) := by
  have hr : rounds ≠ [] := hrounds
  constructor
  · intro h0
    unfold test_latency
    rw [hip]
    simp [IpAddr.is_ipv6, h0, SpeedTestResult.failure]
  · intro hpos
    have hlen : 0 < (rounds.filterMap id).length := List.length_pos.mpr hpos
    unfold test_latency
    rw [hip]
    simp [IpAddr.is_ipv6, hlen, SpeedTestResult.mkSuccess]

/-- Witness for C2: probing `8.8.8.8` with one reply of 10 ms and one lost
round gives a success with mean latency 10 ms and packet loss one half. -/
theorem test_latency_outcome_witness :
    (test_latency (DnsServer.new "g" "8.8.8.8") [some 10, none]).success = true
      ∧ (test_latency (DnsServer.new "g" "8.8.8.8") [some 10, none]).latency_ms = some 10
      ∧ (test_latency (DnsServer.new "g" "8.8.8.8") [some 10, none]).packet_loss = 1 / 2 := by
  have h := (test_latency_outcome (DnsServer.new "g" "8.8.8.8") [some 10, none]
      8 8 8 8 (by decide) (by decide)).2 (by decide)
  obtain ⟨h1, h2, h3⟩ := h
  refine ⟨h1, ?_, ?_⟩
  · rw [h2]; norm_num [List.filterMap_cons, List.filterMap_nil]
  · rw [h3]; norm_num [List.filterMap_cons, List.filterMap_nil]

/-- One `add_result` step on a success with a present latency, from a
summary whose running statistics are present: the mean, minimum and maximum
are updated incrementally. -/
theorem add_result_success_step (server : DnsServer) (x pl sm mn mx : ℚ)
    (t n fc tc : ℕ) (hn : 0 < n) :
    TestSummary.add_result ⟨t, n, fc, tc, some (sm / (n : ℚ)), some mn, some mx⟩
        (SpeedTestResult.mkSuccess server x pl)
      = ⟨t + 1, n + 1, fc, tc, some ((sm + x) / ((n : ℚ) + 1)),
         some (min mn x), some (max mx x)⟩ := by
  have hq : (n : ℚ) ≠ 0 := Nat.cast_ne_zero.mpr hn.ne'
  simp only [TestSummary.add_result, SpeedTestResult.mkSuccess]
  norm_num
  rw [div_mul_cancel₀ sm hq]

/-- Folding a list of success results into a summary with present running
statistics: the closed forms of mean, minimum and maximum. -/
theorem summarize_successes_inv (server : DnsServer) (pl : ℚ) (xs : List ℚ)
    (t n fc tc : ℕ) (sm mn mx : ℚ) (hn : 0 < n) :
    List.foldl TestSummary.add_result
        ⟨t, n, fc, tc, some (sm / (n : ℚ)), some mn, some mx⟩
        (xs.map (fun l => SpeedTestResult.mkSuccess server l pl))
      = ⟨t + xs.length, n + xs.length, fc, tc,
         some ((sm + xs.sum) / ((n : ℚ) + xs.length)),
         some (xs.foldl min mn), some (xs.foldl max mx)⟩ := by
  induction xs generalizing t n sm mn mx with
  | nil => simp
  | cons x xs ih =>
    simp only [List.map_cons, List.foldl_cons]
    rw [add_result_success_step server x pl sm mn mx t n fc tc hn]
    have hn1 : (0 : ℕ) < n + 1 := Nat.succ_pos n
    have hcast : ((n : ℚ) + 1) = ((n + 1 : ℕ) : ℚ) := by push_cast; ring
    rw [hcast, ih (t + 1) (n + 1) (sm + x) (min mn x) (max mx x) hn1]
    simp only [List.length_cons, List.sum_cons, List.foldl_cons, TestSummary.mk.injEq]
    refine ⟨by omega, by omega, trivial, trivial, ?_, trivial, trivial⟩
    congr 1
    push_cast
    ring

/-- Claim C3: for every non-empty latency list folded as success results
into the empty summary, in any order, the incrementally maintained average
equals the arithmetic mean recomputed from scratch (exactly, in the exact
arithmetic of `ℚ`), and the running minimum and maximum equal the minimum
and maximum of the folded latencies. -/
theorem summarize_mean_min_max (server : DnsServer) (pl x : ℚ) (xs : List ℚ) :
    (summarize ((x :: xs).map (fun l => SpeedTestResult.mkSuccess server l pl))).avg_latency
        = some ((x :: xs).sum / (((x :: xs).length : ℕ) : ℚ))
      ∧ (summarize ((x :: xs).map (fun l => SpeedTestResult.mkSuccess server l pl))).min_latency
        = some (xs.foldl min x)
      ∧ (summarize ((x :: xs).map (fun l => SpeedTestResult.mkSuccess server l pl))).max_latency
        = some (xs.foldl max x) := by
  have hfirst : TestSummary.add_result TestSummary.new (SpeedTestResult.mkSuccess server x pl)
      = ⟨1, 1, 0, 0, some (x / ((1 : ℕ) : ℚ)), some x, some x⟩ := by
    simp [TestSummary.add_result, TestSummary.new, SpeedTestResult.mkSuccess]
  unfold summarize
  simp only [List.map_cons, List.foldl_cons]
  rw [hfirst, summarize_successes_inv server pl xs 1 1 0 0 x x x Nat.one_pos]
  refine ⟨?_, rfl, rfl⟩
  simp only [List.length_cons, List.sum_cons]
  congr 1
  push_cast
  ring_nf

/-- Claim C5 counterexample: two probe tasks, where task 1 runs both its
steps between task 0's atomic increment and task 0's `Progress` send — a
real interleaving on the multi-threaded runtime, since nothing prevents
another worker thread from running between the `fetch_add` and the `send`.
The channel then carries `Progress.tested = 2` before `Progress.tested =
1`, so the observed counter sequence is not monotonically non-decreasing. -/
theorem tick_monotonicity_counterexample :
    validInterleaving 2 [0, 1, 1, 0] = true
      ∧ progressTrace [0, 1, 1, 0] = [2, 1]
      ∧ ¬ List.Chain' (· ≤ ·) (progressTrace [0, 1, 1, 0]) := by
  refine ⟨by decide, by decide, ?_⟩
  intro hchain
  rw [show progressTrace [0, 1, 1, 0] = [2, 1] from by decide] at hchain
  simp [List.chain'_cons] at hchain

/-- Folding the serial schedule of fresh, distinct tasks: each task's
increment is immediately followed by its own send, so the `Progress` values
appended to the channel are consecutive counter values. -/
theorem tickRun_serial (ids : List ℕ) (s : TickState)
    (hfresh : ∀ i ∈ ids, s.localCount i = none) (hnodup : ids.Nodup) :
    (List.foldl tickStep s (serialInterleaving ids)).progressSent
      = s.progressSent ++ List.range' (s.tested + 1) ids.length := by
  induction ids generalizing s with
  | nil => simp [serialInterleaving]
  | cons i ids ih =>
    have hi : s.localCount i = none := hfresh i (List.mem_cons_self i ids)
    have hni : i ∉ ids := (List.nodup_cons.mp hnodup).1
    have hnd : ids.Nodup := (List.nodup_cons.mp hnodup).2
    have hser : serialInterleaving (i :: ids) = i :: i :: serialInterleaving ids := by
      simp [serialInterleaving]
    rw [hser, List.foldl_cons, List.foldl_cons]
    have h1 : tickStep s i
        = ⟨s.tested + 1,
           fun j => if j = i then some (s.tested + 1) else s.localCount j,
           s.progressSent⟩ := by
      simp [tickStep, hi]
    have h2 : tickStep
        ⟨s.tested + 1,
         fun j => if j = i then some (s.tested + 1) else s.localCount j,
         s.progressSent⟩ i
        = ⟨s.tested + 1,
           fun j => if j = i then some (s.tested + 1) else s.localCount j,
           s.progressSent ++ [s.tested + 1]⟩ := by
      simp [tickStep]
    rw [h1, h2]
    rw [ih ⟨s.tested + 1,
            fun j => if j = i then some (s.tested + 1) else s.localCount j,
            s.progressSent ++ [s.tested + 1]⟩
          (fun j hj => by
            have : j ≠ i := fun h => hni (h ▸ hj)
            simpa [this] using hfresh j (List.mem_cons_of_mem i hj))
          hnd]
    rw [List.append_assoc, List.singleton_append, List.length_cons, List.range'_succ]

/-- Claim C5 (amended): the `tested` counter values carried by `Progress`
events are monotonically non-decreasing — consecutive, in fact — for every
execution in which no other task's step falls between a task's atomic
increment and its send; on the multi-threaded runtime such interleaving is
possible and the sequence need not be non-decreasing (see the
counterexample). -/
theorem serial_ticks_monotone (ids : List ℕ) (hnodup : ids.Nodup) :
    progressTrace (serialInterleaving ids) = List.range' 1 ids.length
      ∧ List.Chain' (· ≤ ·) (progressTrace (serialInterleaving ids)) := by
  have h := tickRun_serial ids TickState.init (fun _ _ => rfl) hnodup
  have htr : progressTrace (serialInterleaving ids) = List.range' 1 ids.length := by
    simpa [progressTrace, tickRun, TickState.init] using h
  refine ⟨htr, ?_⟩
  rw [htr]
  exact ((List.pairwise_lt_range' 1 ids.length).imp le_of_lt).chain'

/-- Witness for the amended C5: three tasks scheduled serially produce the
tick sequence 1, 2, 3 on the channel. -/
theorem serial_ticks_monotone_witness :
    progressTrace (serialInterleaving [0, 1, 2]) = List.range' 1 3
      ∧ List.Chain' (· ≤ ·) (progressTrace (serialInterleaving [0, 1, 2])) :=
  serial_ticks_monotone [0, 1, 2] (by decide)

/-- Claim C6 failing run: one probe task that outlives the 120-second
global deadline.  The deadline fires, the spawner's `join_all` wait is
abandoned and `Completed` is sent — but the spawned task is neither aborted
nor disconnected from the channel, so when it finishes it still delivers
its `Result`/`Progress` pair after `Completed`. -/
theorem late_result_after_completed :
    validRun 1 [RunEvent.deadline, RunEvent.done, RunEvent.task 0] = true
      ∧ runTrace [RunEvent.deadline, RunEvent.done, RunEvent.task 0]
          = [AppMessage.completed, AppMessage.result 0, AppMessage.progress 0]
      ∧ (runTrace [RunEvent.deadline, RunEvent.done, RunEvent.task 0]).count
          AppMessage.completed = 1
      ∧ (runTrace [RunEvent.deadline, RunEvent.done, RunEvent.task 0]).getLast?
          ≠ some AppMessage.completed := by
  refine ⟨by decide, by decide, by decide, by decide⟩

/-- Setting a position holding `a` to a different value `c` adds one
occurrence of `c`. -/
theorem count_set_of_ne {α : Type} [DecidableEq α] (l : List α) (i : ℕ) (a c : α)
    (h : l.get? i = some a) (hac : a ≠ c) :
    (l.set i c).count c = l.count c + 1 := by
  induction l generalizing i with
  | nil => simp at h
  | cons x xs ih =>
    cases i with
    | zero =>
      simp only [List.get?] at h
      injection h with h
      subst h
      simp [List.count_cons, hac, Ne.symm hac]
    | succ m =>
      simp only [List.get?] at h
      simp only [List.set, List.count_cons]
      rw [ih m h]
      omega

/-- Setting a position holding `a` to a different value `c` removes one
occurrence of `a`. -/
theorem count_set_from_ne {α : Type} [DecidableEq α] (l : List α) (i : ℕ) (a c : α)
    (h : l.get? i = some a) (hac : a ≠ c) :
    (l.set i c).count a + 1 = l.count a := by
  induction l generalizing i with
  | nil => simp at h
  | cons x xs ih =>
    cases i with
    | zero =>
      simp only [List.get?] at h
      injection h with h
      subst h
      simp [List.count_cons, hac, Ne.symm hac]
    | succ m =>
      simp only [List.get?] at h
      simp only [List.set, List.count_cons]
      rw [← ih m h]
      omega

/-- One admission-gate event preserves the permit-accounting identity: free
permits plus running tasks is constant. -/
theorem semStep_inv (k : ℕ) (s : SemState) (e : SemEvent)
    (h : s.available + s.running = k) :
    (semStep s e).available + (semStep s e).running = k := by
  cases e with
  | acquire i =>
    simp only [semStep]
    split
    · rename_i hcond
      have hc := count_set_of_ne s.phases i TaskPhase.waiting TaskPhase.running
        hcond.1 (by decide)
      simp only [SemState.running] at h ⊢
      omega
    · exact h
  | finish i =>
    simp only [semStep]
    split
    · rename_i hr
      have hc := count_set_from_ne s.phases i TaskPhase.running TaskPhase.done
        hr (by decide)
      simp only [SemState.running] at h ⊢
      omega
    · exact h

/-- Permit accounting along any event schedule: from the initial state the
sum of free permits and running tasks stays `k`. -/
theorem semRun_inv (k n : ℕ) (events : List SemEvent) :
    (semRun k n events).available + (semRun k n events).running = k := by
  unfold semRun
  suffices h : ∀ (l : List SemEvent) (s : SemState), s.available + s.running = k →
      (l.foldl semStep s).available + (l.foldl semStep s).running = k by
    refine h events (SemState.init k n) ?_
    simp [SemState.init, SemState.running, List.count_replicate]
  intro l
  induction l with
  | nil => intro s hs; exact hs
  | cons e l ih => intro s hs; exact ih (semStep s e) (semStep_inv k s e hs)

/-- Claim C7: for every endpoint count and every schedule of admissions and
completions, at most `MAX_CONCURRENT` (20) Prober invocations are in flight
simultaneously: the semaphore admits a task only while a permit is free,
and the permit is returned at task completion. -/
theorem scheduler_concurrency_bound (n : ℕ) (events : List SemEvent) :
    (semRun MAX_CONCURRENT n events).running ≤ MAX_CONCURRENT := by
  have h := semRun_inv MAX_CONCURRENT n events
  omega

/-- Trimming every trailing dot of the qualified form equals trimming every
trailing dot of the input: qualification only appends a dot when none is
present. -/
theorem trimTrailingDots_qualify (s : String) :
    trimTrailingDots (qualify s) = trimTrailingDots s := by
  unfold qualify
  split
  · rfl
  · simp [trimTrailingDots, String.data_append]

/-- Claim C9 (amended): the Comparator queries both resolvers with the
fully-qualified form of the input (trailing dot appended when absent), and
the returned `domain` field is the input with all trailing dots stripped —
which is the original unqualified form whenever the input carries at most
one trailing dot. -/
theorem check_queries_and_domain
    (resolveSystem resolvePublic : String → Except String (List IpAddr))
    (domain : String) (sys pub : List IpAddr)
    (hs : resolveSystem (qualify domain) = Except.ok sys)
    (hp : resolvePublic (qualify domain) = Except.ok pub) :
    check resolveSystem resolvePublic domain
      = Except.ok
          { domain := trimTrailingDots domain
            system_ips := sys
            public_ips := pub
            is_polluted := detect_pollution sys pub
            details := detailsFor (detect_pollution sys pub) sys pub } := by
  simp [check, hs, hp, trimTrailingDots_qualify]
  rfl

/-- Witness for the amended C9: an already-unqualified input is queried in
its dot-suffixed form and returned verbatim. -/
theorem check_queries_and_domain_witness :
    check (fun _ => Except.ok [IpAddr.v4 93 184 215 14])
        (fun _ => Except.ok [IpAddr.v4 93 184 215 14]) "example.com"
      = Except.ok
          { domain := "example.com"
            system_ips := [IpAddr.v4 93 184 215 14]
            public_ips := [IpAddr.v4 93 184 215 14]
            is_polluted := false
            details := detailsFor false [IpAddr.v4 93 184 215 14]
              [IpAddr.v4 93 184 215 14] } := by
  have h := check_queries_and_domain
    (fun _ => Except.ok [IpAddr.v4 93 184 215 14])
    (fun _ => Except.ok [IpAddr.v4 93 184 215 14]) "example.com"
    [IpAddr.v4 93 184 215 14] [IpAddr.v4 93 184 215 14] rfl rfl
  rw [h,
    show trimTrailingDots "example.com" = "example.com" from by decide,
    show detect_pollution [IpAddr.v4 93 184 215 14] [IpAddr.v4 93 184 215 14] = false
      from by decide]

/-- Claim C9 counterexample: for the input `"a.."` the source strips every
trailing dot and returns `domain = "a"`, while the original unqualified
form of the input (its trailing separator removed) is `"a."`. -/
theorem check_domain_counterexample :
    ((check (fun _ => Except.ok [IpAddr.v4 1 1 1 1])
          (fun _ => Except.ok [IpAddr.v4 1 1 1 1]) "a..").toOption.map
        PollutionResult.domain = some "a")
      ∧ specUnqualified "a.." = "a."
      ∧ ("a" : String) ≠ "a." := by
  refine ⟨by decide, by decide, by decide⟩

end Dnstest
